import Mathlib

/-!
Shallow embedding of the bump-allocating arena in
`src/crates/arena/src/arena.rs` (the `roc-lang` arena crate).

Machine integers are modelled as `Nat` with explicit bounds and explicit
`% 2^w` where the Rust code truncates.  The model targets a 64-bit host
(`usize` = `u64`), which is the width the source's comments assume.

The allocation core (`try_alloc_layout`, the `u32` `with_capacity`,
`from_file`, `from_slice`, …) lives in `arena.rs` inside a block comment
(lines 154–527); those are the lines the development embeds, together
with the active items (`Header`, `Storage`, `Arena`, `new`,
`fill_borrowed`, the `u64` `with_capacity`, `alloc`, `alloc_layout`).
-/

namespace Arena

/-- Rust `u64::MAX`, equal to `usize::MAX` on the modelled 64-bit host. -/
def u64Max : Nat := 2 ^ 64 - 1

/-- Rust `usize::MAX` (64-bit host). -/
def usizeMax : Nat := 2 ^ 64 - 1

/-- Rust `u32::MAX`. -/
def u32Max : Nat := 2 ^ 32 - 1

/-- Value of `size_of::<Header>()`: the header is `{ capacity: u64, len: u64 }`
(active code, arena.rs:35-43) or `{ next: *mut u8, original_capacity: usize }`
(commented design); both are 16 bytes on a 64-bit host. -/
def headerSize : Nat := 16

/-- Rust `usize::saturating_add` on the 64-bit host. -/
def satAddUsize (a b : Nat) : Nat := min (a + b) usizeMax

/-- Rust `u64::saturating_mul` (used as `bytes_needed.saturating_mul(2)`,
arena.rs:335). -/
def satMulU64 (a b : Nat) : Nat := min (a * b) u64Max

/-- Bitwise complement of a `usize` value (`!x` in Rust): for `n ≤ usizeMax`
this is exactly `usizeMax - n`, since complement is XOR with all-ones. -/
def notUsize (n : Nat) : Nat := usizeMax - n

/-- Expression `x & !(align - 1)` from arena.rs:453: round `x` down to the requested
alignment.  `x - align` wrapping is not involved: Rust computes
`!(align - 1)` in `usize` and bitwise-ANDs. -/
def alignDownMask (x align : Nat) : Nat := x &&& notUsize (align - 1)

/-- Rust `enum AllocFailed` (arena.rs:28-32). -/
inductive AllocFailed where
  | MaxCapacityExceeded
  | OsAllocFailed
deriving DecidableEq, Repr

/-- The three variants of the `Storage` union (arena.rs:50-65): `owned`,
`uninitialized` (a transient header-only state) and `borrowed`. -/
inductive StorageTag where
  | owned
  | uninitialized
  | borrowed
deriving DecidableEq, Repr

/-- Model of an `Arena` (arena.rs:67-71) together with the bump-pointer
header of the commented design (arena.rs:190-201, 420-436):
`content` is the address of the first content byte (just past the header),
`next` is the current free boundary (`header.next`), `capacity` the
content capacity in bytes (`header.original_capacity`), `alloc` the owned
`Allocation` handle (its base address) when one is owned. -/
structure ArenaState where
  owns_allocation : Bool
  tag : StorageTag
  alloc : Option Nat
  content : Nat
  next : Nat
  capacity : Nat
deriving DecidableEq, Repr

/-- Outcome of `try_alloc_layout`: success returns the stored (u32) offset
and the updated arena; `panicked` models reaching the `todo!()` in the
Owned growth path (arena.rs:459), which aborts. -/
inductive AllocResult where
  | ok (offset : Nat) (st : ArenaState)
  | err (e : AllocFailed)
  | panicked
deriving DecidableEq, Repr

/-- Model of `try_alloc_layout` (arena.rs:443-488).  Steps, in source order:
`new_ptr = ptr.saturating_sub(size)` (Nat subtraction is saturating);
`new_ptr &= !(align - 1)`; if `new_ptr < content_ptr` then Owned hits
`let additional_bytes_desired = todo!()` (panic) and Borrowed returns
`Err(MaxCapacityExceeded)` (the `uninitialized` union tag is not matched
by the commented enum; like Borrowed it owns nothing that could grow, so
it is grouped with the non-owned arm); otherwise `set_next(new_ptr)` and
return `Ok(ArenaRefMut::new_in((new_ptr - content_ptr) as u32, self))` —
note the `as u32` truncation, modelled as `% 2^32`. -/
def try_alloc_layout (st : ArenaState) (size align : Nat) : AllocResult :=
  let content_ptr := st.content
  let ptr := st.next
  let new_ptr0 := ptr - size
  let new_ptr := alignDownMask new_ptr0 align
  if new_ptr < content_ptr then
    match st.tag with
    | .owned => .panicked
    | _ => .err .MaxCapacityExceeded
  else
    .ok ((new_ptr - content_ptr) % 2 ^ 32) { st with next := new_ptr }

/-- The arena state after a `try_alloc_layout` outcome: only the success
path runs `set_next`; an error returns before any mutation. -/
def resultState (r : AllocResult) (st : ArenaState) : ArenaState :=
  match r with
  | .ok _ st' => st'
  | _ => st

/-- Bytes currently allocated (`Header.len`): in the downward-bump design
the used bytes are the distance from the free boundary to the content end. -/
def lenOf (st : ArenaState) : Nat := st.content + st.capacity - st.next

/-- The header invariant `length <= capacity` (arena.rs:35-43, spec §3):
equivalently the bump cursor stays inside `[content, content + capacity]`. -/
def Inv (st : ArenaState) : Prop :=
  st.content ≤ st.next ∧ st.next ≤ st.content + st.capacity

instance (st : ArenaState) : Decidable (Inv st) := by
  unfold Inv; infer_instance

/-- Model of `Arena::new()` (arena.rs:74-92): no backing region, `owns_allocation =
false`, storage is the `uninitialized` header `{capacity: 0, len: 0}`, and
`content` points at the arena's own `storage` field (`selfAddr`). -/
def newArena (selfAddr : Nat) : ArenaState :=
  { owns_allocation := false
    tag := .uninitialized
    alloc := none
    content := selfAddr
    next := selfAddr
    capacity := 0 }

/-- The Virtual Memory Provider (`Allocation::alloc_virtual`): maps a
requested byte count to `none` (allocation failure) or `some (base,
granted)` — base address and granted size. -/
def Provider : Type := Nat → Option (Nat × Nat)

/-- Provider contract (spec §2, §6): a grant satisfies the request, fits in
`usize`, and the region is nonnull. -/
def ProviderOk (p : Provider) : Prop :=
  ∀ r base g, p r = some (base, g) →
    r ≤ g ∧ g ≤ usizeMax ∧ 0 < base

/-- The byte count `with_capacity` asks the provider for:
`size_of::<Header>().saturating_add(capacity)` (arena.rs:361; the active
variant's `Layout::new::<Header>().extend(array::<u8>(c))` at
arena.rs:115-117 requests the same `16 + c` bytes). -/
def requestSize (c : Nat) : Nat := satAddUsize headerSize c

/-- Model of `Arena::with_capacity` (active u64 variant arena.rs:112-134 and
commented u32 variant arena.rs:356-389, which the claims cite together):
abort (`none`) when `capacity` is not representable as `usize`
(`try_into::<usize>().unwrap_or_else(|| oom!())`, arena.rs:114) or when the
provider fails (`unwrap_or_else(|_| oom!())`); otherwise record
`content_capacity = allocated_bytes.saturating_sub(size_of::<Header>())`
(arena.rs:374), place the content just past the header, set `len = 0`
(`next` at the content end, arena.rs:380), and own the allocation
(`Storage::Owned(allocation)`, arena.rs:131). -/
def with_capacity (p : Provider) (c : Nat) : Option ArenaState :=
  if c ≤ usizeMax then
    match p (requestSize c) with
    | none => none
    | some (base, granted) =>
      let content_capacity := granted - headerSize
      some { owns_allocation := true
             tag := .owned
             alloc := some base
             content := base + headerSize
             next := base + headerSize + content_capacity
             capacity := content_capacity }
  else none

/-- A caller-supplied `Content` region (header at `base`, then `cap`
content bytes of which `len` are used). -/
structure Region where
  base : Nat
  cap : Nat
  len : Nat
deriving DecidableEq, Repr

/-- Model of `Arena::fill_borrowed` (arena.rs:98-110): if `owns_allocation`, take
the owned allocation out (set the union to `borrowed`) and drop it — the
returned `Option Nat` is the released allocation; then unconditionally set
`owns_allocation = false` and point `content` at the supplied region
(whose content bytes start past its header).  The union tag is only
rewritten in the owned branch, exactly as in the source. -/
def fill_borrowed (st : ArenaState) (r : Region) : ArenaState × Option Nat :=
  let step :=
    if st.owns_allocation then
      ({ st with tag := .borrowed, alloc := none }, st.alloc)
    else (st, none)
  ({ step.1 with
      owns_allocation := false
      content := r.base + headerSize
      next := r.base + headerSize + (r.cap - r.len)
      capacity := r.cap }, step.2)

/-- Model of `IoError` (the `fs` crate's error type): only
`NOT_ENOUGH_MEMORY` (arena.rs:340) needs to be distinguished. -/
inductive IoError where
  | notEnoughMemory
  | other (code : Nat)
deriving DecidableEq, Repr

/-- The file collaborator of `from_file` (spec §6): `read` takes the index
of the read call (the file may change between calls — the race the source
comments discuss) and the buffer length, returning bytes read or an I/O
error; `size_on_disk` reports the metadata size. -/
structure FileModel where
  read : Nat → Nat → Except IoError Nat
  size_on_disk : Except IoError Nat

/-- File contract: a read never reports more bytes than the buffer holds,
and the metadata size fits in `u64`. -/
def FileOk (f : FileModel) : Prop :=
  (∀ i len n, f.read i len = .ok n → n ≤ len) ∧
  (∀ n, f.size_on_disk = .ok n → n ≤ u64Max)

/-- Provider indexed by call number, for `from_file`'s repeated
`Allocation::alloc_virtual` calls. -/
def ProviderIdx : Type := Nat → Nat → Option (Nat × Nat)

/-- Contract for an indexed provider, as `ProviderOk`. -/
def ProviderIdxOk (p : ProviderIdx) : Prop :=
  ∀ i r base g, p i r = some (base, g) →
    r ≤ g ∧ g ≤ usizeMax ∧ 0 < base

/-- Outcome of the retry loop inside `from_file` (arena.rs:310-336):
`done base alloc_size` leaves the loop via `break`, carrying the buffer
`ptr` and the last `alloc_size`; `oomAbort` models
`unwrap_or_else(|_| oom!())` ending the process; `outOfFuel` is the
fuel-exhaustion marker used to reason about (non-)termination. -/
inductive LoopRes where
  | done (base alloc_size : Nat)
  | fail (e : IoError)
  | oomAbort
  | outOfFuel
deriving DecidableEq, Repr

/-- The `loop` of `from_file` (arena.rs:310-336), fuelled.  Each iteration:
`alloc_size = (bytes_needed as usize).saturating_add(size_of::<Header>())`
(arena.rs:314; the `u64 → usize` cast is the identity on the 64-bit host);
allocate (`oom!()` on failure); read into the granted buffer; `break` when
`bytes_read as u64 <= bytes_needed` (arena.rs:327); otherwise
`bytes_needed = bytes_needed.saturating_mul(2)` and retry. -/
def fromFileLoop (f : FileModel) (p : ProviderIdx) :
    Nat → Nat → Nat → LoopRes
  | 0, _, _ => .outOfFuel
  | fuel + 1, i, bytes_needed =>
    let alloc_size := satAddUsize bytes_needed headerSize
    match p i alloc_size with
    | none => .oomAbort
    | some (base, capacity_bytes) =>
      match f.read i capacity_bytes with
      | .error e => .fail e
      | .ok bytes_read =>
        if bytes_read ≤ bytes_needed then .done base alloc_size
        else fromFileLoop f p fuel (i + 1) (satMulU64 bytes_needed 2)

/-- Modelled from the spec: `Arena::from_mut_slice` is called at
arena.rs:344 but is not defined anywhere under `src/`.  Per spec §4.3/§6
the result is a read-only (borrowed) arena over the freshly read region
whose header is recomputed from the region's actual size: content just
past the header, capacity `alloc_size - headerSize`, cursor at the content
end (as the commented `from_slice` sketch at arena.rs:274-280 sets
`next = ptr + original_capacity`). -/
def from_mut_slice (base alloc_size_u32 : Nat) : ArenaState :=
  { owns_allocation := false
    tag := .borrowed
    alloc := none
    content := base + headerSize
    next := base + headerSize + (alloc_size_u32 - headerSize)
    capacity := alloc_size_u32 - headerSize }

/-- Overall outcome of `from_file`. -/
inductive FfResult where
  | ok (arena : ArenaState) (bytes_read : Nat)
  | ioErr (e : IoError)
  | oomAbort
  | outOfFuel
deriving DecidableEq, Repr

/-- The tail of `from_file` (arena.rs:339-346): error with
`NOT_ENOUGH_MEMORY` when `bytes_read >= u32::MAX as usize`, else build the
arena via `from_mut_slice(ptr, alloc_size as u32)` — the `as u32` cast is
modelled as `% 2^32` — and return it with `bytes_read`. -/
def finalize (base alloc_size bytes_read : Nat) : FfResult :=
  if u32Max ≤ bytes_read then .ioErr .notEnoughMemory
  else .ok (from_mut_slice base (alloc_size % 2 ^ 32)) bytes_read

/-- Model of `Arena::from_file` (arena.rs:286-347).  First read into the scratch
region (read call 0).  If `bytes_read < buf.len()`, the whole file was
captured: `alloc_size = bytes_read.saturating_add(headerSize)` and
finalize over the scratch buffer.  Otherwise consult `size_on_disk` and
run the retry loop.  Note the Rust scoping: the `let bytes_read` inside
the loop is a shadow local to the loop body, so the final capacity check
at arena.rs:339 and the returned count at arena.rs:345 use the OUTER
`bytes_read` from the first read — the model reproduces this. -/
def from_file (f : FileModel) (p : ProviderIdx)
    (scratchBase scratchLen fuel : Nat) : FfResult :=
  match f.read 0 scratchLen with
  | .error e => .ioErr e
  | .ok bytes_read =>
    if bytes_read < scratchLen then
      finalize scratchBase (satAddUsize bytes_read headerSize) bytes_read
    else
      match f.size_on_disk with
      | .error e => .ioErr e
      | .ok bytes_needed =>
        match fromFileLoop f p fuel 1 bytes_needed with
        | .done base alloc_size => finalize base alloc_size bytes_read
        | .fail e => .ioErr e
        | .oomAbort => .oomAbort
        | .outOfFuel => .outOfFuel

/-! ### Arithmetic facts about the alignment mask -/

theorem notUsize_two_pow_sub_one (k : Nat) (hk : k ≤ 64) :
    notUsize (2 ^ k - 1) = (2 ^ (64 - k) - 1) <<< k := by
  unfold notUsize usizeMax
  rw [Nat.shiftLeft_eq, Nat.sub_mul, one_mul]
  have h1 : 2 ^ k ≤ 2 ^ 64 := Nat.pow_le_pow_right (by norm_num) hk
  have h2 : 2 ^ (64 - k) * 2 ^ k = 2 ^ 64 := by
    rw [← pow_add]; congr 1; omega
  have h3 : 0 < 2 ^ k := Nat.pos_pow_of_pos _ (by norm_num)
  omega

/-- The bit trick at arena.rs:453: for a power-of-two alignment and a
64-bit value, `x & !(align - 1)` rounds `x` down to a multiple of the
alignment. -/
theorem alignDownMask_two_pow (x k : Nat) (hx : x < 2 ^ 64) (hk : k ≤ 64) :
    alignDownMask x (2 ^ k) = x - x % 2 ^ k := by
  have hrhs : x - x % 2 ^ k = (x >>> k) <<< k := by
    have h := Nat.div_add_mod x (2 ^ k)
    rw [Nat.shiftRight_eq_div_pow, Nat.shiftLeft_eq]
    rw [Nat.mul_comm] at h
    omega
  rw [hrhs]
  apply Nat.eq_of_testBit_eq
  intro i
  rw [alignDownMask, Nat.testBit_land, notUsize_two_pow_sub_one k hk,
    Nat.testBit_shiftLeft, Nat.testBit_shiftLeft, Nat.testBit_shiftRight,
    Nat.testBit_two_pow_sub_one]
  by_cases hik : k ≤ i
  · have hki : k + (i - k) = i := by omega
    rw [hki]
    by_cases hi64 : i < 64
    · have h2 : i - k < 64 - k := by omega
      simp [hik, h2]
    · have hbit : x.testBit i = false := by
        apply Nat.testBit_lt_two_pow
        calc x < 2 ^ 64 := hx
          _ ≤ 2 ^ i := Nat.pow_le_pow_right (by norm_num) (by omega)
      simp [hbit]
  · simp [hik]

theorem alignDownMask_le (x a : Nat) : alignDownMask x a ≤ x :=
  Nat.and_le_left

theorem alignDownMask_dvd (x k : Nat) (hx : x < 2 ^ 64) (hk : k ≤ 64) :
    2 ^ k ∣ alignDownMask x (2 ^ k) := by
  rw [alignDownMask_two_pow x k hx hk]
  have h := Nat.div_add_mod x (2 ^ k)
  refine ⟨x / 2 ^ k, ?_⟩
  omega

theorem alignDownMask_lower (x k : Nat) (hx : x < 2 ^ 64) (hk : k ≤ 64) :
    x - (2 ^ k - 1) ≤ alignDownMask x (2 ^ k) := by
  rw [alignDownMask_two_pow x k hx hk]
  have h := Nat.mod_lt x (y := 2 ^ k) (Nat.pos_pow_of_pos _ (by norm_num))
  omega

/-- Unfolding lemma for `try_alloc_layout` (pure re-association of the
source's `let` bindings). -/
theorem try_alloc_layout_eq (st : ArenaState) (size align : Nat) :
    try_alloc_layout st size align =
      if alignDownMask (st.next - size) align < st.content then
        match st.tag with
        | .owned => .panicked
        | _ => .err .MaxCapacityExceeded
      else
        .ok ((alignDownMask (st.next - size) align - st.content) % 2 ^ 32)
          { st with next := alignDownMask (st.next - size) align } := rfl

/-! ### Example states used as concrete witnesses -/

/-- Example provider: grants exactly the 1040 bytes `with_capacity 1024`
asks for, at the page-aligned base 4096. -/
def pEx : Provider := fun r => if r = 1040 then some (4096, 1040) else none

/-- The arena `with_capacity pEx 1024` builds: content at 4096 + 16,
capacity 1024, cursor at the content end. -/
def stEx1 : ArenaState :=
  { owns_allocation := true
    tag := .owned
    alloc := some 4096
    content := 4112
    next := 5136
    capacity := 1024 }

/-- A borrowed arena with no remaining capacity. -/
def stExB : ArenaState :=
  { owns_allocation := false
    tag := .borrowed
    alloc := none
    content := 4112
    next := 4112
    capacity := 0 }

/-- An owned arena with no remaining capacity. -/
def stExO : ArenaState :=
  { owns_allocation := true
    tag := .owned
    alloc := some 4096
    content := 4112
    next := 4112
    capacity := 1024 }

/-- An owned arena whose content region exceeds 2^32 bytes (for the u32
offset truncation). -/
def stExH : ArenaState :=
  { owns_allocation := true
    tag := .owned
    alloc := some 8
    content := 8
    next := 8 + 2 ^ 32 + 8
    capacity := 2 ^ 32 + 8 }

/-! ### C2 — borrowed arena failure -/

/-- C2: for a Borrowed arena, a `try_alloc_layout` call whose computed
boundary would cross below the start of content fails with
`AllocFailed::MaxCapacityExceeded` (never succeeds), and the bump cursor —
indeed the whole arena state — is exactly as before the failed call. -/
theorem borrowed_alloc_fails_cleanly (st : ArenaState) (size align : Nat)
    (hb : st.tag = .borrowed)
    (hcross : alignDownMask (st.next - size) align < st.content) :
    try_alloc_layout st size align = .err .MaxCapacityExceeded ∧
    resultState (try_alloc_layout st size align) st = st := by
  rw [try_alloc_layout_eq, if_pos hcross, hb]
  exact ⟨rfl, rfl⟩

/-- Witness for C2 at the concrete exhausted borrowed arena `stExB` and an
8-byte, 8-aligned request. -/
theorem borrowed_alloc_fails_cleanly_witness :
    try_alloc_layout stExB 8 8 = .err .MaxCapacityExceeded ∧
    resultState (try_alloc_layout stExB 8 8) stExB = stExB :=
  borrowed_alloc_fails_cleanly stExB 8 8 rfl (by decide)

/-! ### C3 — owned arena growth is unimplemented -/

/-- C3 (code evaluation at the failing input): an Owned arena that needs
to grow never reaches the Virtual Memory Provider: the growth path begins
with `let additional_bytes_desired = todo!()` (arena.rs:459), so the call
panics instead of growing or returning `OsAllocFailed`. -/
theorem owned_grow_path_panics :
    try_alloc_layout stExO 8 8 = .panicked := by decide

/-! ### C10 — offsets are stored truncated to u32 -/

/-- C10: every successful `try_alloc_layout` stores the offset of the new
boundary from the content base as `(new_ptr - content_ptr) as u32`
(arena.rs:487), i.e. reduced modulo 2^32 — never an error for large
offsets. -/
theorem alloc_offset_stored_mod_u32 (st : ArenaState) (size align : Nat)
    (hfit : st.content ≤ alignDownMask (st.next - size) align) :
    try_alloc_layout st size align =
      .ok ((alignDownMask (st.next - size) align - st.content) % 2 ^ 32)
        { st with next := alignDownMask (st.next - size) align } := by
  rw [try_alloc_layout_eq, if_neg (by omega)]

/-- Witness for C10 at `stExH`, whose content region exceeds 2^32 bytes:
the allocation lands at true offset 2^32, and the stored offset is
2^32 % 2^32 = 0 — the truncated value, not an error. -/
theorem alloc_offset_stored_mod_u32_witness :
    try_alloc_layout stExH 8 8 =
      .ok ((alignDownMask (stExH.next - 8) 8 - stExH.content) % 2 ^ 32)
        { stExH with next := alignDownMask (stExH.next - 8) 8 } ∧
    alignDownMask (stExH.next - 8) 8 - stExH.content = 2 ^ 32 ∧
    (alignDownMask (stExH.next - 8) 8 - stExH.content) % 2 ^ 32 = 0 :=
  ⟨alloc_offset_stored_mod_u32 stExH 8 8 (by decide), by decide, by decide⟩

/-! ### C4 — saturating size arithmetic -/

/-- C4: the boundary computation of `try_alloc_layout` uses
`saturating_sub` (arena.rs:448), so a subtraction that would underflow
yields boundary 0, which is below any nonnull content base and therefore
takes the growth-or-fail path — it never succeeds with a corrupted bump
pointer, and a non-success leaves the cursor untouched.  Likewise the size
additions of `from_file` (`saturating_add` at arena.rs:298/314,
`saturating_mul` at arena.rs:335) can never wrap past the native width. -/
theorem saturating_arithmetic_forces_fail_path :
    (∀ st size align, 0 < st.content → st.next < size →
      st.next - size = 0 ∧
      (∀ off st', try_alloc_layout st size align ≠ .ok off st') ∧
      resultState (try_alloc_layout st size align) st = st) ∧
    (∀ b c, satAddUsize b c ≤ usizeMax ∧ satMulU64 b c ≤ u64Max) := by
  constructor
  · intro st size align hc hlt
    have h0 : st.next - size = 0 := by omega
    have hm : alignDownMask (st.next - size) align = 0 := by
      rw [h0, alignDownMask, Nat.zero_and]
    refine ⟨h0, ?_, ?_⟩
    · intro off st'
      rw [try_alloc_layout_eq, hm, if_pos hc]
      cases st.tag <;> simp
    · rw [try_alloc_layout_eq, hm, if_pos hc]
      cases st.tag <;> simp [resultState]
  · intro b c
    exact ⟨Nat.min_le_right _ _, Nat.min_le_right _ _⟩

/-- Witness for C4: a 5000-byte request against the exhausted borrowed
arena `stExB` (cursor 4112) underflows the subtraction; the saturated
boundary 0 takes the fail path and the cursor is untouched. -/
theorem saturating_arithmetic_forces_fail_path_witness :
    stExB.next - 5000 = 0 ∧
    (∀ off st', try_alloc_layout stExB 5000 8 ≠ .ok off st') ∧
    resultState (try_alloc_layout stExB 5000 8) stExB = stExB :=
  saturating_arithmetic_forces_fail_path.1 stExB 5000 8 (by decide) (by decide)

/-! ### C5 — the header invariant -/

/-- C5: `length <= capacity` — equivalently the bump cursor stays inside
`[content, content + capacity]` — holds after every operation: `new`,
`with_capacity`, `fill_borrowed` (over a well-formed region), any
`try_alloc_layout` outcome (success or failure), and the arena `from_file`
builds. -/
theorem header_invariant_all_ops :
    (∀ selfAddr, Inv (newArena selfAddr)) ∧
    (∀ p c st, with_capacity p c = some st → Inv st) ∧
    (∀ st r, r.len ≤ r.cap → Inv (fill_borrowed st r).1) ∧
    (∀ st size align, Inv st →
      Inv (resultState (try_alloc_layout st size align) st)) ∧
    (∀ base n, Inv (from_mut_slice base n)) := by
  refine ⟨?_, ?_, ?_, ?_, ?_⟩
  · intro selfAddr
    constructor <;> simp [newArena]
  · intro p c st h
    unfold with_capacity at h
    split at h
    · cases hp : p (requestSize c) with
      | none => rw [hp] at h; exact absurd h (by simp)
      | some v =>
        obtain ⟨base, granted⟩ := v
        rw [hp] at h
        simp only [Option.some.injEq] at h
        subst h
        constructor <;> simp
    · exact absurd h (by simp)
  · intro st r hr
    by_cases h : st.owns_allocation <;>
      simp [fill_borrowed, h, Inv]
  · intro st size align hinv
    obtain ⟨h1, h2⟩ := hinv
    rw [try_alloc_layout_eq]
    by_cases h : alignDownMask (st.next - size) align < st.content
    · rw [if_pos h]
      cases st.tag <;> exact ⟨h1, h2⟩
    · rw [if_neg h]
      have hle : alignDownMask (st.next - size) align ≤ st.next - size :=
        alignDownMask_le _ _
      have hA : st.content ≤ alignDownMask (st.next - size) align := by omega
      have hB : alignDownMask (st.next - size) align ≤
          st.content + st.capacity := by omega
      exact ⟨hA, hB⟩
  · intro base n
    constructor <;> simp [from_mut_slice]

/-- Witness for C5: the invariant holds concretely for an empty arena at
stack address 40, for `with_capacity pEx 1024`, for a borrowed 4096-byte
region with 100 used bytes, after a successful 32-byte allocation from
`stEx1`, and for a loaded 4096-byte region. -/
theorem header_invariant_all_ops_witness :
    Inv (newArena 40) ∧
    Inv stEx1 ∧
    Inv (fill_borrowed (newArena 40) ⟨8192, 4096, 100⟩).1 ∧
    Inv (resultState (try_alloc_layout stEx1 32 32) stEx1) ∧
    Inv (from_mut_slice 8192 4096) :=
  ⟨header_invariant_all_ops.1 40,
   header_invariant_all_ops.2.1 pEx 1024 stEx1 (by decide),
   header_invariant_all_ops.2.2.1 (newArena 40) ⟨8192, 4096, 100⟩ (by decide),
   header_invariant_all_ops.2.2.2.1 stEx1 32 32 (by decide),
   header_invariant_all_ops.2.2.2.2 8192 4096⟩

/-! ### C6 — with_capacity -/

/-- C6: `with_capacity c` asks the Virtual Memory Provider for at least
`c` bytes (`headerSize + c`, saturated); on success it records as capacity
the granted size minus the header's own bytes, puts the cursor at the
content end (used length 0) and owns the allocation; it aborts when the
provider fails or when `c` is not representable as `usize`. -/
theorem with_capacity_spec (p : Provider) (c : Nat) :
    (usizeMax < c → with_capacity p c = none) ∧
    (c ≤ usizeMax →
      c ≤ requestSize c ∧
      (p (requestSize c) = none → with_capacity p c = none) ∧
      (∀ base granted, p (requestSize c) = some (base, granted) →
        with_capacity p c = some
          { owns_allocation := true
            tag := .owned
            alloc := some base
            content := base + headerSize
            next := base + headerSize + (granted - headerSize)
            capacity := granted - headerSize })) := by
  constructor
  · intro h
    unfold with_capacity
    rw [if_neg (by omega)]
  · intro h
    refine ⟨?_, ?_, ?_⟩
    · unfold requestSize satAddUsize
      unfold usizeMax at h ⊢
      omega
    · intro hp
      unfold with_capacity
      rw [if_pos h, hp]
    · intro base granted hp
      unfold with_capacity
      rw [if_pos h, hp]

/-- Witness for C6 with the concrete provider `pEx` and `c = 1024`: the
request (1040 bytes) covers `c`, and the built arena records capacity
1040 − 16 = 1024, cursor at the content end, in owned storage. -/
theorem with_capacity_spec_witness :
    1024 ≤ requestSize 1024 ∧
    with_capacity pEx 1024 = some
      { owns_allocation := true
        tag := .owned
        alloc := some 4096
        content := 4096 + headerSize
        next := 4096 + headerSize + (1040 - headerSize)
        capacity := 1040 - headerSize } :=
  ⟨((with_capacity_spec pEx 1024).2 (by decide)).1,
   ((with_capacity_spec pEx 1024).2 (by decide)).2.2 4096 1040 (by decide)⟩

/-! ### C7 — fill_borrowed -/

/-- C7: `fill_borrowed` releases the previously owned allocation exactly
when the arena owned one, and afterwards the arena borrows the supplied
region without ownership: `owns_allocation` is false and the content
pointer refers to the supplied region (so a later drop releases nothing
for it). -/
theorem fill_borrowed_spec (st : ArenaState) (r : Region)
    (hwf : st.owns_allocation = true → st.alloc.isSome) :
    (fill_borrowed st r).2 =
      (if st.owns_allocation then st.alloc else none) ∧
    ((fill_borrowed st r).2.isSome ↔ st.owns_allocation = true) ∧
    (fill_borrowed st r).1.owns_allocation = false ∧
    (fill_borrowed st r).1.content = r.base + headerSize ∧
    (fill_borrowed st r).1.capacity = r.cap ∧
    (fill_borrowed st r).1.alloc =
      (if st.owns_allocation then none else st.alloc) := by
  by_cases h : st.owns_allocation
  · have hs := hwf h
    simp [fill_borrowed, h, hs]
  · simp [fill_borrowed, h]

/-- Witness for C7 at the owned arena `stEx1` (allocation at base 4096)
rebound to a caller region at 8192: the old allocation is the one
released, ownership is dropped, and the content pointer moves to the new
region. -/
theorem fill_borrowed_spec_witness :
    (fill_borrowed stEx1 ⟨8192, 4096, 0⟩).2 =
      (if stEx1.owns_allocation then stEx1.alloc else none) ∧
    ((fill_borrowed stEx1 ⟨8192, 4096, 0⟩).2.isSome ↔
      stEx1.owns_allocation = true) ∧
    (fill_borrowed stEx1 ⟨8192, 4096, 0⟩).1.owns_allocation = false ∧
    (fill_borrowed stEx1 ⟨8192, 4096, 0⟩).1.content = 8192 + headerSize ∧
    (fill_borrowed stEx1 ⟨8192, 4096, 0⟩).1.capacity = 4096 ∧
    (fill_borrowed stEx1 ⟨8192, 4096, 0⟩).1.alloc =
      (if stEx1.owns_allocation then none else stEx1.alloc) :=
  fill_borrowed_spec stEx1 ⟨8192, 4096, 0⟩ (by decide)

/-! ### C8 — termination of the from_file retry loop -/

/-- A file exhibiting the race `from_file` is documented to survive: the
first read fills the scratch region completely, the metadata size is 0
(the file was truncated between the read and the metadata call), and every
later read returns at least one byte (the file grew again). -/
def fRace : FileModel :=
  { read := fun i len => if i = 0 then .ok len else .ok (min 1 len)
    size_on_disk := .ok 0 }

/-- A provider that always grants exactly the requested bytes at base
4096. -/
def pAll : ProviderIdx := fun _ r => some (4096, r)

/-- C8 (code evaluation at the failing input): with a zero metadata size
and persistently nonempty reads, `bytes_needed.saturating_mul(2)` keeps
`bytes_needed` at 0 forever, every 16-byte allocation succeeds, and the
retry loop of `from_file` never terminates — for every fuel bound the run
is still going.  This contradicts the termination the source's own
comments assert (arena.rs:306-307, 331-334). -/
theorem from_file_zero_size_race_diverges (fuel : Nat) :
    from_file fRace pAll 4096 8 fuel = .outOfFuel := by
  have key : ∀ n i, fromFileLoop fRace pAll n i 0 = .outOfFuel := by
    intro n
    induction n with
    | zero => intro i; rfl
    | succ m ih =>
      intro i
      have hstep : fromFileLoop fRace pAll (m + 1) i 0 =
          fromFileLoop fRace pAll m (i + 1) 0 := by
        by_cases h0 : i = 0 <;>
          simp [fromFileLoop, fRace, pAll, satAddUsize, satMulU64, h0,
            usizeMax, u64Max, headerSize]
      rw [hstep]
      exact ih (i + 1)
  have h1 : fRace.read 0 8 = .ok 8 := rfl
  have h2 : fRace.size_on_disk = .ok 0 := rfl
  simp only [from_file, h1, h2, key]
  norm_num

/-- The half of C8 that does hold: once `bytes_needed` is positive, the
saturating doubling reaches `u64::MAX` in at most 64 steps, after which a
read can never exceed it (a read fits its buffer, which fits `usize`), so
the loop leaves via `break`, allocation failure, or an I/O error — fuel
`n + 1` with `u64Max ≤ b * 2 ^ n` suffices. -/
theorem fromFileLoop_terminates_of_pos (f : FileModel) (p : ProviderIdx)
    (hf : FileOk f) (hp : ProviderIdxOk p) :
    ∀ n b i, b ≤ u64Max → u64Max ≤ b * 2 ^ n →
      fromFileLoop f p (n + 1) i b ≠ .outOfFuel := by
  intro n
  induction n with
  | zero =>
    intro b i hb hsat
    have hb' : b = u64Max := by
      have : b * 2 ^ 0 = b := by ring
      omega
    show fromFileLoop f p 1 i b ≠ .outOfFuel
    simp only [fromFileLoop]
    cases hpv : p i (satAddUsize b headerSize) with
    | none => simp
    | some v =>
      obtain ⟨base, cap⟩ := v
      cases hr : f.read i cap with
      | error e => simp [hr]
      | ok m =>
        have hm : m ≤ cap := hf.1 i cap m hr
        have hcap : cap ≤ usizeMax := (hp i _ base cap hpv).2.1
        have hmb : m ≤ b := by
          have : usizeMax = u64Max := rfl
          omega
        simp [hr, hmb]
  | succ k ih =>
    intro b i hb hsat
    show fromFileLoop f p (k + 1 + 1) i b ≠ .outOfFuel
    simp only [fromFileLoop]
    cases hpv : p i (satAddUsize b headerSize) with
    | none => simp
    | some v =>
      obtain ⟨base, cap⟩ := v
      cases hr : f.read i cap with
      | error e => simp [hr]
      | ok m =>
        by_cases hmb : m ≤ b
        · simp [hr, hmb]
        · simp only [hr, if_neg hmb]
          apply ih
          · exact Nat.min_le_right _ _
          · unfold satMulU64
            rcases Nat.le_total (b * 2) u64Max with hle | hle
            · rw [min_eq_left hle]
              calc u64Max ≤ b * 2 ^ (k + 1) := hsat
                _ = b * 2 * 2 ^ k := by ring
            · rw [min_eq_right hle]
              calc u64Max = u64Max * 1 := by ring
                _ ≤ u64Max * 2 ^ k :=
                    Nat.mul_le_mul_left _ (Nat.one_le_two_pow)

/-! ### C9 — the not-enough-memory classification -/

/-- A file holding exactly `u32::MAX` = 2^32 − 1 bytes. -/
def fBig : FileModel :=
  { read := fun _ len => .ok (min (2 ^ 32 - 1) len)
    size_on_disk := .ok (2 ^ 32 - 1) }

/-- Counterexample to C9 as stated: reading a file of exactly 2^32 − 1
bytes — a content size still representable in 32 bits — returns the
"not enough memory" I/O error, because the check at arena.rs:339 is
`bytes_read >= u32::MAX`, not a strict excess over the 32-bit ceiling. -/
theorem from_file_errors_at_representable_size :
    from_file fBig pAll 8192 (2 ^ 32) 5 = .ioErr .notEnoughMemory ∧
    2 ^ 32 - 1 ≤ u32Max := by
  exact ⟨rfl, by decide⟩

/-- C9 as amended: on a run whose initial read succeeds without filling
the scratch region, `from_file` returns the I/O error classified "not
enough memory" exactly when the bytes read reach `u32::MAX` (so the
boundary value 2^32 − 1, though 32-bit-representable, is rejected);
otherwise it returns the constructed read-only arena together with the
initial read's byte count. -/
theorem from_file_mem_error_iff (f : FileModel) (p : ProviderIdx)
    (scratchBase scratchLen fuel bytes_read : Nat)
    (hread : f.read 0 scratchLen = .ok bytes_read)
    (hlt : bytes_read < scratchLen) :
    (from_file f p scratchBase scratchLen fuel = .ioErr .notEnoughMemory ↔
      u32Max ≤ bytes_read) ∧
    (bytes_read < u32Max →
      from_file f p scratchBase scratchLen fuel =
        .ok (from_mut_slice scratchBase
          (satAddUsize bytes_read headerSize % 2 ^ 32)) bytes_read) := by
  unfold from_file
  rw [hread]
  simp only [hlt, if_true]
  unfold finalize
  by_cases hc : u32Max ≤ bytes_read
  · simp [hc]
  · simp [hc]

/-- Witness for the amended C9: a 100-byte file read into a 4096-byte
scratch region loads successfully with 100 bytes reported. -/
def fSmall : FileModel :=
  { read := fun _ len => .ok (min 100 len), size_on_disk := .ok 100 }

theorem from_file_mem_error_iff_witness :
    from_file fSmall pAll 4096 4096 1 =
      .ok (from_mut_slice 4096 (satAddUsize 100 headerSize % 2 ^ 32)) 100 :=
  (from_file_mem_error_iff fSmall pAll 4096 4096 1 100 rfl (by decide)).2
    (by decide)

/-! ### C1 — allocation sequences -/

/-- One bump step: the boundary `try_alloc_layout` computes for a
`(size, align)` call from boundary `b` (arena.rs:448-453). -/
def bump (b : Nat) (c : Nat × Nat) : Nat := alignDownMask (b - c.1) c.2

/-- The successive free boundaries of a call sequence starting from
boundary `b`. -/
def boundariesFrom (b : Nat) : List (Nat × Nat) → List Nat
  | [] => []
  | c :: rest => bump b c :: boundariesFrom (bump b c) rest

/-- Run a sequence of `try_alloc_layout` calls, collecting the returned
offsets; `none` as soon as one call does not succeed. -/
def allocAll : ArenaState → List (Nat × Nat) → Option (List Nat × ArenaState)
  | st, [] => some ([], st)
  | st, c :: rest =>
    match try_alloc_layout st c.1 c.2 with
    | .ok off st' =>
      match allocAll st' rest with
      | some (offs, stF) => some (off :: offs, stF)
      | none => none
    | _ => none

/-- Cumulative size of a call sequence, counting each call's size plus the
worst-case `align - 1` bytes its downward rounding can consume. -/
def worstCase (calls : List (Nat × Nat)) : Nat :=
  (calls.map fun c => c.1 + (c.2 - 1)).sum

/-- A single in-capacity `try_alloc_layout` call, dissected: it succeeds,
the new boundary is the previous boundary minus the size rounded down to
the (power-of-two) alignment, the boundary stays at or above the content
base and consumes at most `size + align - 1` bytes, it is a multiple of
the alignment, and — because the content base is a multiple of the
alignment and offsets stay below 2^32 — the returned offset is the exact
boundary-minus-base difference and a multiple of the alignment. -/
theorem try_alloc_step (st : ArenaState) (s a k : Nat)
    (hk : k ≤ 64) (ha : a = 2 ^ k)
    (hal : st.content % a = 0)
    (hc : 0 < st.content)
    (hmax : st.next ≤ usizeMax)
    (hu32 : st.next ≤ st.content + u32Max)
    (hroom : st.content + (s + (a - 1)) ≤ st.next) :
    try_alloc_layout st s a =
      .ok (alignDownMask (st.next - s) a - st.content)
        { st with next := alignDownMask (st.next - s) a } ∧
    st.content ≤ alignDownMask (st.next - s) a ∧
    alignDownMask (st.next - s) a + s ≤ st.next ∧
    st.next - (s + (a - 1)) ≤ alignDownMask (st.next - s) a ∧
    (alignDownMask (st.next - s) a - st.content) % a = 0 := by
  have hx : st.next - s < 2 ^ 64 := by
    unfold usizeMax at hmax; omega
  have hapos : 0 < a := by subst ha; exact Nat.pos_pow_of_pos _ (by norm_num)
  have hmod : alignDownMask (st.next - s) a = (st.next - s) - (st.next - s) % a := by
    subst ha; exact alignDownMask_two_pow _ k hx hk
  have hup : alignDownMask (st.next - s) a ≤ st.next - s := alignDownMask_le _ _
  have hlow : (st.next - s) - (a - 1) ≤ alignDownMask (st.next - s) a := by
    subst ha; exact alignDownMask_lower _ k hx hk
  have hge : st.content ≤ alignDownMask (st.next - s) a := by omega
  have hdvd : a ∣ alignDownMask (st.next - s) a := by
    subst ha; exact alignDownMask_dvd _ k hx hk
  have hdvdc : a ∣ st.content := Nat.dvd_of_mod_eq_zero hal
  have hoffdvd : a ∣ (alignDownMask (st.next - s) a - st.content) :=
    Nat.dvd_sub' hdvd hdvdc
  have hoffmod : (alignDownMask (st.next - s) a - st.content) % a = 0 := by
    obtain ⟨t, ht⟩ := hoffdvd
    rw [ht]
    exact Nat.mul_mod_right a t
  refine ⟨?_, hge, by omega, by omega, hoffmod⟩
  rw [try_alloc_layout_eq, if_neg (by omega)]
  have hsmall : alignDownMask (st.next - s) a - st.content < 2 ^ 32 := by
    unfold u32Max at hu32; omega
  rw [Nat.mod_eq_of_lt hsmall]

/-- C1 as amended: for a sequence of `try_alloc_layout` calls with
power-of-two alignments that all divide the content base address, whose
cumulative size with alignment rounding (each call costing at most
`size + align - 1` bytes) stays within the arena's remaining capacity
(and, per the u32 offset representation, the region is below 2^32 bytes):
every call succeeds; the boundary after each call is the previous
boundary minus the size, rounded down to the requested alignment (so the
returned offsets are exactly those boundaries relative to the content
base); every offset is a multiple of its requested alignment; every
range `[offset, offset + size)` lies inside the used region; and the
ranges of distinct calls are pairwise disjoint. -/
theorem alloc_sequence_spec :
    ∀ (calls : List (Nat × Nat)) (st : ArenaState),
    (∀ c ∈ calls, ∃ k, k ≤ 64 ∧ c.2 = 2 ^ k ∧ st.content % c.2 = 0) →
    0 < st.content →
    st.next ≤ usizeMax →
    st.next ≤ st.content + u32Max →
    st.content + worstCase calls ≤ st.next →
    ∃ stF,
      allocAll st calls =
        some (((boundariesFrom st.next calls).map fun b => b - st.content),
          stF) ∧
      stF = { st with next := calls.foldl bump st.next } ∧
      (∀ pr ∈ ((boundariesFrom st.next calls).map fun b =>
          b - st.content).zip calls,
        pr.1 % pr.2.2 = 0 ∧ pr.1 + pr.2.1 ≤ st.next - st.content) ∧
      (((boundariesFrom st.next calls).map fun b =>
          b - st.content).zip calls).Pairwise
        fun x y => x.1 + x.2.1 ≤ y.1 ∨ y.1 + y.2.1 ≤ x.1 := by
  intro calls
  induction calls with
  | nil =>
    intro st _ _ _ _ _
    exact ⟨st, rfl, rfl, by simp [boundariesFrom], by simp [boundariesFrom]⟩
  | cons c rest ih =>
    intro st hcalls hc hmax hu32 hroom
    obtain ⟨k, hk, ha, hal⟩ := hcalls c (List.mem_cons_self c rest)
    have hwc : worstCase (c :: rest) = c.1 + (c.2 - 1) + worstCase rest := by
      simp [worstCase]
    obtain ⟨hok, hge, hup, hlow, hoffmod⟩ :=
      try_alloc_step st c.1 c.2 k hk ha hal hc hmax hu32 (by omega)
    have hmle : alignDownMask (st.next - c.1) c.2 ≤ st.next := by omega
    obtain ⟨stF, hAll, hstF, hProps, hPair⟩ :=
      ih { st with next := alignDownMask (st.next - c.1) c.2 }
        (fun c' hc' => by
          obtain ⟨k', h1, h2, h3⟩ := hcalls c' (List.mem_cons_of_mem c hc')
          exact ⟨k', h1, h2, h3⟩)
        hc
        (show alignDownMask (st.next - c.1) c.2 ≤ usizeMax by omega)
        (show alignDownMask (st.next - c.1) c.2 ≤ st.content + u32Max by
          omega)
        (show st.content + worstCase rest ≤
            alignDownMask (st.next - c.1) c.2 by omega)
    have hAll2 : allocAll { st with next := alignDownMask (st.next - c.1) c.2 }
        rest =
        some (((boundariesFrom (alignDownMask (st.next - c.1) c.2) rest).map
          fun b => b - st.content), stF) := hAll
    have hProps2 : ∀ pr ∈ ((boundariesFrom (alignDownMask (st.next - c.1) c.2)
        rest).map fun b => b - st.content).zip rest,
        pr.1 % pr.2.2 = 0 ∧
        pr.1 + pr.2.1 ≤ alignDownMask (st.next - c.1) c.2 - st.content :=
      hProps
    have hPair2 : (((boundariesFrom (alignDownMask (st.next - c.1) c.2)
        rest).map fun b => b - st.content).zip rest).Pairwise
        (fun x y => x.1 + x.2.1 ≤ y.1 ∨ y.1 + y.2.1 ≤ x.1) := hPair
    refine ⟨stF, ?_, ?_, ?_, ?_⟩
    · show (match try_alloc_layout st c.1 c.2 with
        | .ok off st' =>
          (match allocAll st' rest with
           | some (offs, stF) => some (off :: offs, stF)
           | none => none)
        | _ => none) = _
      rw [hok]
      show (match allocAll { st with next := alignDownMask (st.next - c.1) c.2 }
          rest with
        | some (offs, stF) =>
          some ((alignDownMask (st.next - c.1) c.2 - st.content) :: offs, stF)
        | none => none) = _
      rw [hAll2]
      rfl
    · rw [hstF]
      rfl
    · intro pr hpr
      rw [show boundariesFrom st.next (c :: rest) =
          alignDownMask (st.next - c.1) c.2 ::
            boundariesFrom (alignDownMask (st.next - c.1) c.2) rest from rfl,
        List.map_cons, List.zip_cons_cons, List.mem_cons] at hpr
      rcases hpr with heq | hmem
      · subst heq
        refine ⟨hoffmod, ?_⟩
        show alignDownMask (st.next - c.1) c.2 - st.content + c.1 ≤
          st.next - st.content
        omega
      · obtain ⟨h1, h2⟩ := hProps2 pr hmem
        exact ⟨h1, by omega⟩
    · rw [show boundariesFrom st.next (c :: rest) =
          alignDownMask (st.next - c.1) c.2 ::
            boundariesFrom (alignDownMask (st.next - c.1) c.2) rest from rfl,
        List.map_cons, List.zip_cons_cons]
      refine List.Pairwise.cons ?_ hPair2
      intro y hy
      right
      have h2 := (hProps2 y hy).2
      omega

/-- Counterexample to C1 as stated: the arena built by
`with_capacity pEx 1024` has its content base at 4096 + 16 = 4112 (the
provider returned the page-aligned base 4096, and the content sits past
the 16-byte header).  A single 32-byte, 32-aligned call — well within the
1024-byte capacity under any reading of "cumulative size with alignment
rounding" — succeeds, but its offset from the content base is 976, which
is not a multiple of the requested alignment 32 (the rounding at
arena.rs:453 aligns the absolute address 4112 + 976 = 5088, not the
offset). -/
theorem alloc_offset_misaligned_counterexample :
    ProviderOk pEx ∧
    with_capacity pEx 1024 = some stEx1 ∧
    32 + (32 - 1) ≤ stEx1.capacity ∧
    try_alloc_layout stEx1 32 32 = .ok 976 { stEx1 with next := 5088 } ∧
    ¬ 976 % 32 = 0 := by
  refine ⟨?_, by decide, by decide, by decide, by decide⟩
  intro r base g h
  by_cases hr : r = 1040
  · subst hr
    rw [show pEx 1040 = some (4096, 1040) from rfl] at h
    cases h
    exact ⟨by decide, by decide, by decide⟩
  · rw [show pEx r = if r = 1040 then some (4096, 1040) else none from rfl,
      if_neg hr] at h
    cases h

/-- Witness for the amended C1 at the concrete arena `stEx1` and the call
sequence (24 bytes @ 8), (16 @ 16), (4 @ 4). -/
theorem alloc_sequence_spec_witness :
    ∃ stF,
      allocAll stEx1 [(24, 8), (16, 16), (4, 4)] =
        some (((boundariesFrom stEx1.next [(24, 8), (16, 16), (4, 4)]).map
          fun b => b - stEx1.content), stF) ∧
      stF = { stEx1 with
        next := [(24, 8), (16, 16), (4, 4)].foldl bump stEx1.next } ∧
      (∀ pr ∈ ((boundariesFrom stEx1.next [(24, 8), (16, 16), (4, 4)]).map
          fun b => b - stEx1.content).zip [(24, 8), (16, 16), (4, 4)],
        pr.1 % pr.2.2 = 0 ∧ pr.1 + pr.2.1 ≤ stEx1.next - stEx1.content) ∧
      (((boundariesFrom stEx1.next [(24, 8), (16, 16), (4, 4)]).map
          fun b => b - stEx1.content).zip
            [(24, 8), (16, 16), (4, 4)]).Pairwise
        (fun x y => x.1 + x.2.1 ≤ y.1 ∨ y.1 + y.2.1 ≤ x.1) :=
  alloc_sequence_spec [(24, 8), (16, 16), (4, 4)] stEx1
    (by
      intro c hc
      fin_cases hc
      · exact ⟨3, by norm_num, rfl, by decide⟩
      · exact ⟨4, by norm_num, rfl, by decide⟩
      · exact ⟨2, by norm_num, rfl, by decide⟩)
    (by decide) (by decide) (by decide) (by decide)

end Arena
